import Mathlib

/-!
Verification of the CalculadoraAPI backend (Express + Prisma, TypeScript) against
its natural-language specification.

The embedding models the three Prisma tables (`usuarios`, `clientes`, `calculos`,
from `src/prisma/migrations/.../migration.sql`) as Lean structures, the database
as explicit state (`DB`), and each route handler as a pure function from state and
validated input to a new state plus a response.  Monetary values (`DOUBLE
PRECISION` in the store) are modelled as exact rationals; timestamps and record
ids are modelled as naturals (Prisma cuid ids are opaque strings ordered only for
the determinism discussion, which only needs an order on ids).  HTTP error
responses are modelled as a status code plus the literal message string the
handler sends.
-/

namespace CalculadoraAPI

/-- A row of the `usuarios` table: id, nome, email, senha (bcrypt digest as an
opaque string), role (`"admin"` or `"user"` in the source), createdAt. -/
structure Usuario where
  id : Nat
  nome : String
  email : String
  senha : String
  role : String
  createdAt : Nat
deriving DecidableEq, Repr

/-- A row of the `clientes` table: id, nome, telefone, cpf (unique), email,
createdAt. -/
structure Cliente where
  id : Nat
  nome : String
  telefone : String
  cpf : String
  email : String
  createdAt : Nat
deriving DecidableEq, Repr

/-- A row of the `calculos` table; monetary doubles modelled as exact rationals.
`usuarioId` is nullable (`ON DELETE SET NULL`), `clienteId` is required. -/
structure Calculo where
  id : Nat
  valorLocacao : ℚ
  valorTaxas : ℚ
  valorInicial : ℚ
  valorOriginal : ℚ
  valorComDesconto : ℚ
  valorCorrigido : ℚ
  taxaPoupanca : ℚ
  clienteId : Nat
  usuarioId : Option Nat
  createdAt : Nat
deriving DecidableEq, Repr

/-- The backing store: the three tables plus a fresh-id source and the current
timestamp used for `createdAt` of newly inserted rows. -/
structure DB where
  usuarios : List Usuario
  clientes : List Cliente
  calculos : List Calculo
  nextId : Nat
  now : Nat
deriving DecidableEq, Repr

/-- An error response: HTTP status plus the message string the handler sends. -/
structure ApiError where
  status : Nat
  message : String
deriving DecidableEq, Repr

/-- The spec's `Unauthorized` taxon (§7): the handlers realise it as HTTP 401. -/
def Unauthorized (msg : String) : ApiError := ⟨401, msg⟩

/-- The spec's `NotFound` taxon (§7): the handlers realise it as HTTP 404. -/
def NotFound (msg : String) : ApiError := ⟨404, msg⟩

/-- The spec's `Conflict` taxon (§7: "uniqueness or business-rule violation such
as delete-with-dependents or delete-self"): the handlers realise every such
business-rule rejection as HTTP 400 with a specific message. -/
def Conflict (msg : String) : ApiError := ⟨400, msg⟩

/-! ### Generic list helpers

`sortDesc` models the store's `orderBy: { createdAt: 'desc' }`: a stable sort on
the given key, descending; ties keep store order.  `paginate` models
`skip: (page-1)*limit, take: limit`. -/

/-- Insert `a` into a list sorted descending by `key`, before the first element
whose key is not greater than `key a` (so repeated insertion is stable). -/
def insertDesc {α : Type} (key : α → Nat) (a : α) : List α → List α
  | [] => [a]
  | x :: xs => if key a < key x then x :: insertDesc key a xs else a :: x :: xs

/-- Stable descending sort by `key` (insertion sort via `foldr`). -/
def sortDesc {α : Type} (key : α → Nat) (l : List α) : List α :=
  l.foldr (insertDesc key) []

/-- `skip (page-1)*limit, take limit` of the store query. -/
def paginate {α : Type} (page limit : Nat) (l : List α) : List α :=
  (l.drop ((page - 1) * limit)).take limit

theorem mem_insertDesc {α : Type} (key : α → Nat) (a b : α) (l : List α) :
    b ∈ insertDesc key a l ↔ b = a ∨ b ∈ l := by
  induction l with
  | nil => simp [insertDesc]
  | cons x xs ih =>
      by_cases h : key a < key x
      · simp only [insertDesc, if_pos h, List.mem_cons, ih]
        tauto
      · simp only [insertDesc, if_neg h, List.mem_cons]

theorem mem_sortDesc {α : Type} (key : α → Nat) (a : α) (l : List α) :
    a ∈ sortDesc key l ↔ a ∈ l := by
  induction l with
  | nil => simp [sortDesc]
  | cons x xs ih =>
      simp only [sortDesc, List.foldr_cons, List.mem_cons]
      rw [mem_insertDesc]
      exact or_congr Iff.rfl ih

theorem length_insertDesc {α : Type} (key : α → Nat) (a : α) (l : List α) :
    (insertDesc key a l).length = l.length + 1 := by
  induction l with
  | nil => rfl
  | cons x xs ih =>
      by_cases h : key a < key x
      · simp [insertDesc, if_pos h, ih]
      · simp [insertDesc, if_neg h]

theorem length_sortDesc {α : Type} (key : α → Nat) (l : List α) :
    (sortDesc key l).length = l.length := by
  induction l with
  | nil => rfl
  | cons x xs ih =>
      simp only [sortDesc, List.foldr_cons] at *
      rw [length_insertDesc, ih, List.length_cons]

theorem sorted_insertDesc {α : Type} (key : α → Nat) (a : α) (l : List α)
    (h : l.Pairwise (fun x y => key y ≤ key x)) :
    (insertDesc key a l).Pairwise (fun x y => key y ≤ key x) := by
  induction l with
  | nil => simp [insertDesc]
  | cons x xs ih =>
      rcases List.pairwise_cons.mp h with ⟨hx, hxs⟩
      by_cases hlt : key a < key x
      · simp only [insertDesc, if_pos hlt]
        refine List.pairwise_cons.mpr ⟨?_, ih hxs⟩
        intro b hb
        rcases (mem_insertDesc key a b xs).mp hb with rfl | hbxs
        · exact Nat.le_of_lt hlt
        · exact hx b hbxs
      · simp only [insertDesc, if_neg hlt]
        refine List.pairwise_cons.mpr ⟨?_, h⟩
        intro b hb
        rcases List.mem_cons.mp hb with rfl | hbxs
        · exact Nat.le_of_not_lt hlt
        · exact le_trans (hx b hbxs) (Nat.le_of_not_lt hlt)

theorem sorted_sortDesc {α : Type} (key : α → Nat) (l : List α) :
    (sortDesc key l).Pairwise (fun x y => key y ≤ key x) := by
  induction l with
  | nil => simp [sortDesc]
  | cons x xs ih => exact sorted_insertDesc key x _ ih

theorem mem_paginate {α : Type} {page limit : Nat} {l : List α} {a : α}
    (h : a ∈ paginate page limit l) : a ∈ l :=
  ((List.take_sublist _ _).trans (List.drop_sublist _ _)).mem h

theorem sorted_paginate {α : Type} (key : α → Nat) (page limit : Nat) (l : List α)
    (h : l.Pairwise (fun x y => key y ≤ key x)) :
    (paginate page limit l).Pairwise (fun x y => key y ≤ key x) :=
  List.Pairwise.sublist ((List.take_sublist _ _).trans (List.drop_sublist _ _)) h

theorem paginate_all {α : Type} (limit : Nat) (l : List α) (h : l.length ≤ limit) :
    paginate 1 limit l = l := by
  simp [paginate, List.take_of_length_le h]

/-! ### Calculation engine and calculation-create
(`src/routes/calculo.ts`, POST `/api/calculos`). -/

/-- The client payload inside `criarCalculoSchema` (nome, telefone, cpf, email),
already past zod validation. -/
structure ClienteInput where
  nome : String
  telefone : String
  cpf : String
  email : String
deriving DecidableEq, Repr

/-- The body of POST `/api/calculos` after zod parsing: `taxaPoupanca` carries
the schema default `0.005` when the caller omitted it. -/
structure CriarCalculoInput where
  valorLocacao : ℚ
  valorTaxas : ℚ
  cliente : ClienteInput
  taxaPoupanca : ℚ
deriving DecidableEq, Repr

/-- `prisma.cliente.findUnique({ where: { cpf } })`. -/
def findClienteByCpf (db : DB) (cpf : String) : Option Cliente :=
  db.clientes.find? (fun c => c.cpf == cpf)

/-- `prisma.cliente.update({ where: { cpf }, data })` applied to one record:
contact fields replaced, id and createdAt kept. -/
def updateClienteFields (c : Cliente) (d : ClienteInput) : Cliente :=
  { c with nome := d.nome, telefone := d.telefone, cpf := d.cpf, email := d.email }

/-- The client upsert step of POST `/api/calculos` (lines 275-291 of the route):
look the client up by cpf; if absent, `create` a new record; otherwise `update`
the record with that cpf in place.  Returns the new store and the record Prisma
returns (the created, resp. updated, client). -/
def upsertClienteByCpf (db : DB) (d : ClienteInput) : DB × Cliente :=
  match db.clientes.find? (fun c => c.cpf == d.cpf) with
  | none =>
      let c : Cliente :=
        { id := db.nextId, nome := d.nome, telefone := d.telefone,
          cpf := d.cpf, email := d.email, createdAt := db.now }
      ({ db with clientes := db.clientes ++ [c], nextId := db.nextId + 1 }, c)
  | some c0 =>
      ({ db with clientes :=
          db.clientes.map (fun c => if c.cpf == d.cpf then updateClienteFields c d else c) },
        updateClienteFields c0 d)

/-- POST `/api/calculos` after validation: upsert the client by cpf, compute the
four derived values in the source's order
(`valorInicial = valorLocacao + valorTaxas`, `valorOriginal = valorInicial * 4`,
`valorComDesconto = valorOriginal * 0.75`,
`valorCorrigido = valorComDesconto * (1 + taxaPoupanca)`), then insert the
calculation linked to the resolved client and the authenticated user. -/
def criarCalculo (db : DB) (usuario : Usuario) (dados : CriarCalculoInput) :
    DB × Calculo :=
  let p := upsertClienteByCpf db dados.cliente
  let valorInicial := dados.valorLocacao + dados.valorTaxas
  let valorOriginal := valorInicial * 4
  let valorComDesconto := valorOriginal * 0.75
  let valorCorrigido := valorComDesconto * (1 + dados.taxaPoupanca)
  let novo : Calculo :=
    { id := p.1.nextId, valorLocacao := dados.valorLocacao,
      valorTaxas := dados.valorTaxas, valorInicial := valorInicial,
      valorOriginal := valorOriginal, valorComDesconto := valorComDesconto,
      valorCorrigido := valorCorrigido, taxaPoupanca := dados.taxaPoupanca,
      clienteId := p.2.id, usuarioId := some usuario.id, createdAt := p.1.now }
  ({ p.1 with calculos := p.1.calculos ++ [novo], nextId := p.1.nextId + 1 }, novo)

/-- C1: for every strictly positive rentalValue (valorLocacao) and feesValue
(valorTaxas) and every savingsRate (taxaPoupanca) ≥ 0, the calculation created
by calculation-create has `valorInicial = valorLocacao + valorTaxas`,
`valorOriginal = valorInicial * 4`, `valorComDesconto = valorOriginal * 0.75`
and `valorCorrigido = valorComDesconto * (1 + taxaPoupanca)`, each derived field
computed from the previous one in that order; in particular the inputs
(1000, 200, 0.005) yield 1200, 4800, 3600 and 3618. -/
theorem criarCalculo_formulas (db : DB) (usuario : Usuario)
    (dados : CriarCalculoInput) (hvl : 0 < dados.valorLocacao)
    (hvt : 0 < dados.valorTaxas) (htp : 0 ≤ dados.taxaPoupanca) :
    (criarCalculo db usuario dados).2.valorInicial
        = dados.valorLocacao + dados.valorTaxas
    ∧ (criarCalculo db usuario dados).2.valorOriginal
        = (criarCalculo db usuario dados).2.valorInicial * 4
    ∧ (criarCalculo db usuario dados).2.valorComDesconto
        = (criarCalculo db usuario dados).2.valorOriginal * 0.75
    ∧ (criarCalculo db usuario dados).2.valorCorrigido
        = (criarCalculo db usuario dados).2.valorComDesconto
            * (1 + dados.taxaPoupanca)
    ∧ (dados.valorLocacao = 1000 → dados.valorTaxas = 200 →
        dados.taxaPoupanca = 0.005 →
        (criarCalculo db usuario dados).2.valorInicial = 1200
        ∧ (criarCalculo db usuario dados).2.valorOriginal = 4800
        ∧ (criarCalculo db usuario dados).2.valorComDesconto = 3600
        ∧ (criarCalculo db usuario dados).2.valorCorrigido = 3618) := by
  refine ⟨rfl, rfl, rfl, rfl, ?_⟩
  intro h1 h2 h3
  show dados.valorLocacao + dados.valorTaxas = 1200
    ∧ (dados.valorLocacao + dados.valorTaxas) * 4 = 4800
    ∧ (dados.valorLocacao + dados.valorTaxas) * 4 * 0.75 = 3600
    ∧ (dados.valorLocacao + dados.valorTaxas) * 4 * 0.75
        * (1 + dados.taxaPoupanca) = 3618
  rw [h1, h2, h3]
  norm_num

/-- Witness for C1 at the spec's worked example. -/
theorem criarCalculo_formulas_witness :
    (criarCalculo ⟨[], [], [], 1, 0⟩ ⟨1, "a", "a@a.com", "h", "user", 0⟩
        ⟨1000, 200, ⟨"Nome", "1234567890", "12345678901", "c@c.com"⟩, 0.005⟩).2.valorCorrigido
      = 3618 := by
  have h := criarCalculo_formulas ⟨[], [], [], 1, 0⟩
    ⟨1, "a", "a@a.com", "h", "user", 0⟩
    ⟨1000, 200, ⟨"Nome", "1234567890", "12345678901", "c@c.com"⟩, 0.005⟩
    (by norm_num) (by norm_num) (by norm_num)
  exact (h.2.2.2.2 rfl rfl rfl).2.2.2

/-! ### Authorization gate (`src/routes/usuario.ts`, `authMiddleware`). -/

/-- `authMiddleware` (lines 153-193 of `src/routes/usuario.ts`).  `verify`
abstracts `jwt.verify` with the server key: it returns the `userId` claim, or
`none` when `jwt.verify` throws (invalid / expired / unparseable token).  With
no `Authorization` header the middleware answers 401 "Token de acesso
requerido"; with a header it strips the `Bearer ` prefix, verifies, and answers
401 "Token inválido" when verification fails; when the claim's user id is not in
the store it answers the same 401 "Token inválido"; otherwise it attaches the
resolved user. -/
def authMiddleware (verify : String → Option Nat) (db : DB)
    (authHeader : Option String) : Except ApiError Usuario :=
  match authHeader with
  | none => .error (Unauthorized "Token de acesso requerido")
  | some h =>
      match verify (h.replace "Bearer " "") with
      | none => .error (Unauthorized "Token inválido")
      | some userId =>
          match db.usuarios.find? (fun u => u.id == userId) with
          | none => .error (Unauthorized "Token inválido")
          | some u => .ok u

/-- C3: the gate rejects a missing bearer token with Unauthorized("Token de
acesso requerido"); a present token that fails verification with
Unauthorized("Token inválido"); and a valid token whose user no longer exists
with the byte-identical Unauthorized("Token inválido"), so the response does not
distinguish an invalid token from a deleted user. -/
theorem authMiddleware_cases (verify : String → Option Nat) (db : DB) :
    authMiddleware verify db none
        = .error (Unauthorized "Token de acesso requerido")
    ∧ (∀ h : String, verify (h.replace "Bearer " "") = none →
        authMiddleware verify db (some h) = .error (Unauthorized "Token inválido"))
    ∧ (∀ (h : String) (userId : Nat), verify (h.replace "Bearer " "") = some userId →
        db.usuarios.find? (fun u => u.id == userId) = none →
        authMiddleware verify db (some h) = .error (Unauthorized "Token inválido"))
    ∧ (∀ (h h' : String) (userId : Nat), verify (h.replace "Bearer " "") = none →
        verify (h'.replace "Bearer " "") = some userId →
        db.usuarios.find? (fun u => u.id == userId) = none →
        authMiddleware verify db (some h) = authMiddleware verify db (some h')) := by
  refine ⟨rfl, ?_, ?_, ?_⟩
  · intro h hv
    simp [authMiddleware, hv]
  · intro h userId hv hu
    simp [authMiddleware, hv, hu]
  · intro h h' userId hv hv' hu
    simp [authMiddleware, hv, hv', hu]

/-- Witness for C3: a verifier that maps every token to user 7, an empty user
store (user 7 deleted), and the header `"Bearer t"`. -/
theorem authMiddleware_cases_witness :
    authMiddleware (fun _ => some 7) ⟨[], [], [], 1, 0⟩ (some "Bearer t")
      = .error (Unauthorized "Token inválido") := by
  have h := authMiddleware_cases (fun _ => some 7) ⟨[], [], [], 1, 0⟩
  exact h.2.2.1 "Bearer t" 7 rfl rfl

/-! ### Admin user deletion (`src/routes/usuario.ts`, DELETE `/api/usuarios/:id`). -/

/-- DELETE `/api/usuarios/:id` (lines 425-456): look the target up by id
(404 "Usuário não encontrado" when absent); refuse with 400 "Você não pode
excluir sua própria conta" when the target id is the acting user's own id;
otherwise delete the row.  Returns the resulting store alongside the
response. -/
def deleteUsuario (db : DB) (actingUser : Usuario) (id : Nat) :
    DB × Except ApiError Unit :=
  match db.usuarios.find? (fun u => u.id == id) with
  | none => (db, .error (NotFound "Usuário não encontrado"))
  | some _ =>
      if id == actingUser.id then
        (db, .error (Conflict "Você não pode excluir sua própria conta"))
      else
        ({ db with usuarios := db.usuarios.filter (fun u => u.id != id) }, .ok ())

/-- C4: an acting admin (whose own record is in the store, as the auth and admin
gates guarantee) deleting their own id fails with Conflict("Você não pode
excluir sua própria conta") and leaves the store unchanged; deleting any other
existing user id succeeds and removes that user. -/
theorem deleteUsuario_self_conflict (db : DB) (a : Usuario)
    (hrole : a.role = "admin")
    (ha : (db.usuarios.find? (fun u => u.id == a.id)).isSome = true) :
    deleteUsuario db a a.id
        = (db, .error (Conflict "Você não pode excluir sua própria conta"))
    ∧ (∀ (x : Nat) (u : Usuario), x ≠ a.id →
        db.usuarios.find? (fun v => v.id == x) = some u →
        (deleteUsuario db a x).2 = .ok ()
        ∧ (deleteUsuario db a x).1.usuarios.find? (fun v => v.id == x) = none) := by
  constructor
  · rcases Option.isSome_iff_exists.mp ha with ⟨u, hu⟩
    simp [deleteUsuario, hu]
  · intro x u hx hu
    have hne : (x == a.id) = false := beq_eq_false_iff_ne.mpr hx
    refine ⟨by simp [deleteUsuario, hu, hne], ?_⟩
    simp only [deleteUsuario, hu, hne, Bool.false_eq_true, if_false]
    rw [List.find?_eq_none]
    intro v hv
    have := (List.mem_filter.mp hv).2
    simpa [bne] using this

/-- Witness for C4: store with admin 1 and user 2; admin 1 cannot delete itself
but deletes user 2. -/
theorem deleteUsuario_self_conflict_witness :
    deleteUsuario
        ⟨[⟨1, "A", "a@a.com", "h", "admin", 0⟩, ⟨2, "B", "b@b.com", "h", "user", 0⟩],
          [], [], 3, 5⟩
        ⟨1, "A", "a@a.com", "h", "admin", 0⟩ 1
      = (⟨[⟨1, "A", "a@a.com", "h", "admin", 0⟩, ⟨2, "B", "b@b.com", "h", "user", 0⟩],
          [], [], 3, 5⟩,
         .error (Conflict "Você não pode excluir sua própria conta"))
    ∧ (deleteUsuario
        ⟨[⟨1, "A", "a@a.com", "h", "admin", 0⟩, ⟨2, "B", "b@b.com", "h", "user", 0⟩],
          [], [], 3, 5⟩
        ⟨1, "A", "a@a.com", "h", "admin", 0⟩ 2).2 = .ok () := by
  have h := deleteUsuario_self_conflict
    ⟨[⟨1, "A", "a@a.com", "h", "admin", 0⟩, ⟨2, "B", "b@b.com", "h", "user", 0⟩],
      [], [], 3, 5⟩
    ⟨1, "A", "a@a.com", "h", "admin", 0⟩ rfl (by decide)
  exact ⟨h.1, (h.2 2 ⟨2, "B", "b@b.com", "h", "user", 0⟩ (by decide) (by decide)).1⟩

/-! ### Client deletion (`src/routes/cliente.ts`, DELETE `/api/clientes/:id`). -/

/-- DELETE `/api/clientes/:id` (lines 206-240 of the client route): look the
client up by id together with `_count.calculos` (the number of calculations
whose `clienteId` is this client); 404 "Cliente não encontrado" when absent;
400 "Não é possível deletar cliente que possui cálculos" when the count is
positive, without touching the store; otherwise delete the row. -/
def deleteCliente (db : DB) (id : Nat) : DB × Except ApiError Unit :=
  match db.clientes.find? (fun c => c.id == id) with
  | none => (db, .error (NotFound "Cliente não encontrado"))
  | some _ =>
      if 0 < db.calculos.countP (fun ca => ca.clienteId == id) then
        (db, .error (Conflict "Não é possível deletar cliente que possui cálculos"))
      else
        ({ db with clientes := db.clientes.filter (fun c => c.id != id) }, .ok ())

/-- C5: deleting an existing client with at least one associated calculation
fails with Conflict("Não é possível deletar cliente que possui cálculos") and
leaves the store unchanged (the guard fires before any store delete); deleting
an existing client with zero associated calculations succeeds and removes the
client. -/
theorem deleteCliente_guard (db : DB) (id : Nat) (c : Cliente)
    (hc : db.clientes.find? (fun v => v.id == id) = some c) :
    (0 < db.calculos.countP (fun ca => ca.clienteId == id) →
      deleteCliente db id
        = (db, .error (Conflict "Não é possível deletar cliente que possui cálculos")))
    ∧ (db.calculos.countP (fun ca => ca.clienteId == id) = 0 →
      (deleteCliente db id).2 = .ok ()
      ∧ (deleteCliente db id).1.clientes.find? (fun v => v.id == id) = none
      ∧ (deleteCliente db id).1.calculos = db.calculos
      ∧ (deleteCliente db id).1.usuarios = db.usuarios) := by
  constructor
  · intro hpos
    simp [deleteCliente, hc, hpos]
  · intro hzero
    have hneg : ¬ 0 < db.calculos.countP (fun ca => ca.clienteId == id) := by
      omega
    refine ⟨by simp [deleteCliente, hc, hneg], ?_, by simp [deleteCliente, hc, hneg],
      by simp [deleteCliente, hc, hneg]⟩
    simp only [deleteCliente, hc, hneg, if_false]
    rw [List.find?_eq_none]
    intro v hv
    have := (List.mem_filter.mp hv).2
    simpa [bne] using this

/-- Witness for C5: client 1 has one calculation so its deletion conflicts;
client 2 has none so its deletion succeeds. -/
theorem deleteCliente_guard_witness :
    deleteCliente
        ⟨[], [⟨1, "C", "1234567890", "11122233344", "c@c.com", 0⟩],
          [⟨10, 1000, 200, 1200, 4800, 3600, 3618, 0.005, 1, some 1, 0⟩], 11, 5⟩ 1
      = (⟨[], [⟨1, "C", "1234567890", "11122233344", "c@c.com", 0⟩],
          [⟨10, 1000, 200, 1200, 4800, 3600, 3618, 0.005, 1, some 1, 0⟩], 11, 5⟩,
         .error (Conflict "Não é possível deletar cliente que possui cálculos"))
    ∧ (deleteCliente
        ⟨[], [⟨2, "D", "1234567890", "55566677788", "d@d.com", 0⟩], [], 3, 5⟩ 2).2
      = .ok () := by
  constructor
  · exact (deleteCliente_guard
      ⟨[], [⟨1, "C", "1234567890", "11122233344", "c@c.com", 0⟩],
        [⟨10, 1000, 200, 1200, 4800, 3600, 3618, 0.005, 1, some 1, 0⟩], 11, 5⟩ 1
      ⟨1, "C", "1234567890", "11122233344", "c@c.com", 0⟩ (by decide)).1 (by decide)
  · exact ((deleteCliente_guard
      ⟨[], [⟨2, "D", "1234567890", "55566677788", "d@d.com", 0⟩], [], 3, 5⟩ 2
      ⟨2, "D", "1234567890", "55566677788", "d@d.com", 0⟩ (by decide)).2 (by decide)).1

/-! ### Calculation getById and delete (`src/routes/calculo.ts`). -/

/-- GET `/api/calculos/:id` (lines 388-418): look the calculation up by id with
its client expanded (`include: { cliente: true }`); 404 "Cálculo não encontrado"
when absent; otherwise return it.  The acting user resolved by the auth gate is
a parameter but the handler never consults it. -/
def getCalculoById (db : DB) (actingUser : Usuario) (id : Nat) :
    Except ApiError (Calculo × Option Cliente) :=
  match db.calculos.find? (fun c => c.id == id) with
  | none => .error (NotFound "Cálculo não encontrado")
  | some c => .ok (c, db.clientes.find? (fun cl => cl.id == c.clienteId))

/-- DELETE `/api/calculos/:id` (lines 421-443): look the calculation up by id;
404 "Cálculo não encontrado" when absent; otherwise delete it.  The acting user
is never consulted. -/
def deleteCalculo (db : DB) (actingUser : Usuario) (id : Nat) :
    DB × Except ApiError Unit :=
  match db.calculos.find? (fun c => c.id == id) with
  | none => (db, .error (NotFound "Cálculo não encontrado"))
  | some _ =>
      ({ db with calculos := db.calculos.filter (fun c => c.id != id) }, .ok ())

/-- C7: getById returns the calculation with its client expanded when present
and NotFound("Cálculo não encontrado") otherwise; delete deletes when present
and fails with NotFound otherwise; neither consults the acting user (both
results are identical for any two acting users, so a non-admin can fetch and
delete calculations created by others). -/
theorem calculo_byId_delete_no_ownership (db : DB) (u u' : Usuario) (id : Nat) :
    getCalculoById db u id = getCalculoById db u' id
    ∧ deleteCalculo db u id = deleteCalculo db u' id
    ∧ (db.calculos.find? (fun c => c.id == id) = none →
        getCalculoById db u id = .error (NotFound "Cálculo não encontrado")
        ∧ deleteCalculo db u id = (db, .error (NotFound "Cálculo não encontrado")))
    ∧ (∀ c : Calculo, db.calculos.find? (fun v => v.id == id) = some c →
        getCalculoById db u id
            = .ok (c, db.clientes.find? (fun cl => cl.id == c.clienteId))
        ∧ (deleteCalculo db u id).2 = .ok ()
        ∧ (deleteCalculo db u id).1.calculos.find? (fun v => v.id == id) = none) := by
  refine ⟨rfl, rfl, ?_, ?_⟩
  · intro hnone
    exact ⟨by simp [getCalculoById, hnone], by simp [deleteCalculo, hnone]⟩
  · intro c hc
    refine ⟨by simp [getCalculoById, hc], by simp [deleteCalculo, hc], ?_⟩
    simp only [deleteCalculo, hc]
    rw [List.find?_eq_none]
    intro v hv
    have := (List.mem_filter.mp hv).2
    simpa [bne] using this

/-- Witness for C7: a non-admin user fetches and deletes a calculation created
by user 1. -/
theorem calculo_byId_delete_no_ownership_witness :
    getCalculoById
        ⟨[], [⟨1, "C", "1234567890", "11122233344", "c@c.com", 0⟩],
          [⟨10, 1000, 200, 1200, 4800, 3600, 3618, 0.005, 1, some 1, 0⟩], 11, 5⟩
        ⟨2, "B", "b@b.com", "h", "user", 0⟩ 10
      = .ok (⟨10, 1000, 200, 1200, 4800, 3600, 3618, 0.005, 1, some 1, 0⟩,
          some ⟨1, "C", "1234567890", "11122233344", "c@c.com", 0⟩)
    ∧ (deleteCalculo
        ⟨[], [⟨1, "C", "1234567890", "11122233344", "c@c.com", 0⟩],
          [⟨10, 1000, 200, 1200, 4800, 3600, 3618, 0.005, 1, some 1, 0⟩], 11, 5⟩
        ⟨2, "B", "b@b.com", "h", "user", 0⟩ 10).2 = .ok () := by
  have h := calculo_byId_delete_no_ownership
    ⟨[], [⟨1, "C", "1234567890", "11122233344", "c@c.com", 0⟩],
      [⟨10, 1000, 200, 1200, 4800, 3600, 3618, 0.005, 1, some 1, 0⟩], 11, 5⟩
    ⟨2, "B", "b@b.com", "h", "user", 0⟩ ⟨2, "B", "b@b.com", "h", "user", 0⟩ 10
  have hfind := h.2.2.2 ⟨10, 1000, 200, 1200, 4800, 3600, 3618, 0.005, 1, some 1, 0⟩
    rfl
  exact ⟨by rw [hfind.1]; rfl, hfind.2.1⟩

/-! ### Calculation list (`src/routes/calculo.ts`, GET `/api/calculos`). -/

/-- Does a calculation pass the request's optional `clienteId` filter? -/
def matchesClienteFilter (clienteId : Option Nat) (c : Calculo) : Bool :=
  match clienteId with
  | none => true
  | some cid => c.clienteId == cid

/-- GET `/api/calculos` (lines 342-385): build `where` from the optional
`clienteId` filter; when the acting user's role is not `'admin'`, additionally
constrain `usuarioId` to the acting user's id; then
`findMany(where, orderBy createdAt desc, skip (page-1)*limit, take limit)`.
The query orders by `createdAt` alone; the embedding realises the store's
unspecified tie order as store (insertion) order via the stable `sortDesc`. -/
def listCalculos (db : DB) (actingUser : Usuario) (clienteId : Option Nat)
    (page limit : Nat) : List Calculo :=
  let base := db.calculos.filter (matchesClienteFilter clienteId)
  let owned :=
    if actingUser.role == "admin" then base
    else base.filter (fun c => c.usuarioId == some actingUser.id)
  paginate page limit (sortDesc (fun c => c.createdAt) owned)

/-- C2: every calculation the list operation returns to a non-admin user has
`usuarioId` equal to that user's id, whatever `clienteId`, `page` and `limit`
the request supplies; for an admin and a window covering the whole table,
membership in the result is exactly membership in the store with the
`clienteId` filter satisfied. -/
theorem listCalculos_ownership (db : DB) (u : Usuario) :
    (u.role ≠ "admin" →
      ∀ (clienteId : Option Nat) (page limit : Nat) (c : Calculo),
        c ∈ listCalculos db u clienteId page limit → c.usuarioId = some u.id)
    ∧ (u.role = "admin" →
      ∀ (clienteId : Option Nat) (c : Calculo),
        c ∈ listCalculos db u clienteId 1 db.calculos.length
          ↔ c ∈ db.calculos ∧ matchesClienteFilter clienteId c = true) := by
  constructor
  · intro hrole clienteId page limit c hc
    have hradm : (u.role == "admin") = false := beq_eq_false_iff_ne.mpr hrole
    have hmem : c ∈ sortDesc (fun c => c.createdAt)
        ((db.calculos.filter (matchesClienteFilter clienteId)).filter
          (fun c => c.usuarioId == some u.id)) := by
      simp only [listCalculos, hradm, Bool.false_eq_true, if_false] at hc
      exact mem_paginate hc
    have := (List.mem_filter.mp ((mem_sortDesc _ _ _).mp hmem)).2
    simpa using this
  · intro hrole clienteId c
    have hradm : (u.role == "admin") = true := by simp [hrole]
    have hlen : (sortDesc (fun c => c.createdAt)
        (db.calculos.filter (matchesClienteFilter clienteId))).length
          ≤ db.calculos.length := by
      rw [length_sortDesc]
      exact List.length_filter_le _ _
    simp only [listCalculos, hradm, if_true]
    rw [paginate_all _ _ hlen, mem_sortDesc, List.mem_filter]

/-- Witness for C2: the store holds one calculation owned by user 1 and one by
user 2; the non-admin user 2 lists only their own, and the admin's full-window
list contains user 1's record. -/
theorem listCalculos_ownership_witness :
    (∀ c : Calculo,
      c ∈ listCalculos
          ⟨[], [], [⟨10, 1, 1, 2, 8, 6, 6, 0, 1, some 1, 7⟩,
            ⟨11, 1, 1, 2, 8, 6, 6, 0, 1, some 2, 7⟩], 12, 9⟩
          ⟨2, "B", "b@b.com", "h", "user", 0⟩ none 1 50
        → c.usuarioId = some 2)
    ∧ (⟨10, 1, 1, 2, 8, 6, 6, 0, 1, some 1, 7⟩ ∈ listCalculos
          ⟨[], [], [⟨10, 1, 1, 2, 8, 6, 6, 0, 1, some 1, 7⟩,
            ⟨11, 1, 1, 2, 8, 6, 6, 0, 1, some 2, 7⟩], 12, 9⟩
          ⟨1, "A", "a@a.com", "h", "admin", 0⟩ none 1 2) := by
  have h := listCalculos_ownership
    ⟨[], [], [⟨10, 1, 1, 2, 8, 6, 6, 0, 1, some 1, 7⟩,
      ⟨11, 1, 1, 2, 8, 6, 6, 0, 1, some 2, 7⟩], 12, 9⟩
    ⟨2, "B", "b@b.com", "h", "user", 0⟩
  have h' := listCalculos_ownership
    ⟨[], [], [⟨10, 1, 1, 2, 8, 6, 6, 0, 1, some 1, 7⟩,
      ⟨11, 1, 1, 2, 8, 6, 6, 0, 1, some 2, 7⟩], 12, 9⟩
    ⟨1, "A", "a@a.com", "h", "admin", 0⟩
  refine ⟨fun c hc => h.1 (by decide) none 1 50 c hc, ?_⟩
  exact (h'.2 rfl none ⟨10, 1, 1, 2, 8, 6, 6, 0, 1, some 1, 7⟩).mpr
    ⟨by simp, rfl⟩

/-- The ordering C9 claims for the list result: strictly later creation first,
ties broken by ascending id. -/
def claimedOrder (a b : Calculo) : Prop :=
  b.createdAt < a.createdAt ∨ (a.createdAt = b.createdAt ∧ a.id < b.id)

instance : DecidableRel claimedOrder := fun a b =>
  decidable_of_iff
    (b.createdAt < a.createdAt ∨ (a.createdAt = b.createdAt ∧ a.id < b.id)) Iff.rfl

/-- C9 counterexample: with two calculations sharing `createdAt = 7`, stored
with the higher id first, the admin list returns them in store order
`[id 11, id 10]`, so consecutive results do not satisfy the claimed
creation-time-then-ascending-id order: the query orders by `createdAt` alone
and breaks no ties by id. -/
theorem listCalculos_order_counterexample :
    (listCalculos
        ⟨[], [], [⟨11, 1, 1, 2, 8, 6, 6, 0, 1, some 1, 7⟩,
          ⟨10, 1, 1, 2, 8, 6, 6, 0, 1, some 1, 7⟩], 12, 9⟩
        ⟨1, "A", "a@a.com", "h", "admin", 0⟩ none 1 50).map (fun c => c.id)
      = [11, 10]
    ∧ ¬ List.Chain' claimedOrder
        (listCalculos
          ⟨[], [], [⟨11, 1, 1, 2, 8, 6, 6, 0, 1, some 1, 7⟩,
            ⟨10, 1, 1, 2, 8, 6, 6, 0, 1, some 1, 7⟩], 12, 9⟩
          ⟨1, "A", "a@a.com", "h", "admin", 0⟩ none 1 50) := by
  refine ⟨by decide, ?_⟩
  intro hchain
  have hres : listCalculos
      ⟨[], [], [⟨11, 1, 1, 2, 8, 6, 6, 0, 1, some 1, 7⟩,
        ⟨10, 1, 1, 2, 8, 6, 6, 0, 1, some 1, 7⟩], 12, 9⟩
      ⟨1, "A", "a@a.com", "h", "admin", 0⟩ none 1 50
      = [⟨11, 1, 1, 2, 8, 6, 6, 0, 1, some 1, 7⟩,
        ⟨10, 1, 1, 2, 8, 6, 6, 0, 1, some 1, 7⟩] := rfl
  rw [hres] at hchain
  have h1 := (List.chain'_cons.mp hchain).1
  simp only [claimedOrder] at h1
  omega

/-- C9 as amended: the calculation list is paginated and ordered by creation
time descending (consecutive results have non-increasing `createdAt`); the
relative order of results with equal creation time is the store's, not an
id-ascending tie-break. -/
theorem listCalculos_sorted_desc (db : DB) (u : Usuario) (clienteId : Option Nat)
    (page limit : Nat) :
    (listCalculos db u clienteId page limit).Pairwise
      (fun a b => b.createdAt ≤ a.createdAt) := by
  unfold listCalculos
  exact sorted_paginate _ _ _ _ (sorted_sortDesc _ _)

/-! ### Client list with search (`src/routes/cliente.ts`, GET `/api/clientes`). -/

/-- Does `need` occur as a contiguous run of characters of `hay`?  Models the
store's `contains` string filter. -/
def charsContain : List Char → List Char → Bool
  | [], need => need.isEmpty
  | h :: t, need => need.isPrefixOf (h :: t) || charsContain t need

/-- `{ field: { contains: search } }`: case-sensitive substring test. -/
def strContains (hay need : String) : Bool :=
  charsContain hay.toList need.toList

/-- `{ field: { contains: search, mode: 'insensitive' } }`: substring test after
lowercasing both sides character by character. -/
def strContainsCI (hay need : String) : Bool :=
  charsContain (hay.toList.map Char.toLower) (need.toList.map Char.toLower)

/-- The `where` clause of GET `/api/clientes` (lines 19-25 of the client route):
`OR` of nome contains (insensitive), email contains (insensitive), cpf
contains (case-sensitive, no `mode`). -/
def clienteMatchesSearch (search : String) (c : Cliente) : Bool :=
  strContainsCI c.nome search || strContainsCI c.email search
    || strContains c.cpf search

/-- The matching rule as the spec's sentence words it: nome/email matched
case-insensitively, the cpf matched exactly (string equality). -/
def clienteMatchesSpec (search : String) (c : Cliente) : Bool :=
  strContainsCI c.nome search || strContainsCI c.email search || c.cpf == search

/-- GET `/api/clientes` (lines 15-52): apply the search `where` when a search
string is supplied, order by `createdAt` descending, then skip/take. -/
def listClientes (db : DB) (search : Option String) (page limit : Nat) :
    List Cliente :=
  let base := match search with
    | none => db.clientes
    | some s => db.clientes.filter (clienteMatchesSearch s)
  paginate page limit (sortDesc (fun c => c.createdAt) base)

/-- C8 counterexample: the search string "234" is a proper substring of the
stored cpf "12345678901" and matches neither nome nor email, so the handler
returns the client although the spec's exact-cpf rule matches nothing: the code
filters the cpf with `contains`, not equality. -/
theorem listClientes_search_counterexample :
    listClientes ⟨[], [⟨1, "zz", "1234567890", "12345678901", "q@q.q", 0⟩], [], 2, 9⟩
        (some "234") 1 50
      = [⟨1, "zz", "1234567890", "12345678901", "q@q.q", 0⟩]
    ∧ clienteMatchesSpec "234" ⟨1, "zz", "1234567890", "12345678901", "q@q.q", 0⟩
      = false := by
  exact ⟨rfl, rfl⟩

/-- C8 as amended: for every search string S the client list operation (over a
window covering the whole table) returns exactly the clients for which S occurs
case-insensitively as a substring of the name, or case-insensitively as a
substring of the email, or case-sensitively as a substring of the national-id
(CPF) — any one match qualifies (OR semantics). -/
theorem listClientes_search_semantics (db : DB) (s : String) (c : Cliente) :
    c ∈ listClientes db (some s) 1 db.clientes.length
      ↔ c ∈ db.clientes ∧ clienteMatchesSearch s c = true := by
  have hlen : (sortDesc (fun c => c.createdAt)
      (db.clientes.filter (clienteMatchesSearch s))).length ≤ db.clientes.length := by
    rw [length_sortDesc]
    exact List.length_filter_le _ _
  simp only [listClientes]
  rw [paginate_all _ _ hlen, mem_sortDesc, List.mem_filter]

/-! ### Helper lemmas: `find?` and `filter` through a `map` that preserves the
predicate, and `filter` under a uniqueness bound. -/

theorem find?_map_pred {α : Type} (f : α → α) (p : α → Bool)
    (hf : ∀ a, p (f a) = p a) :
    ∀ l : List α, (l.map f).find? p = (l.find? p).map f := by
  intro l
  induction l with
  | nil => rfl
  | cons x xs ih =>
      cases hpx : p x with
      | true =>
          rw [List.map_cons, List.find?_cons_of_pos _ ((hf x).trans hpx),
            List.find?_cons_of_pos _ hpx, Option.map_some']
      | false =>
          rw [List.map_cons, List.find?_cons_of_neg _ (by simp [hf x, hpx]),
            List.find?_cons_of_neg _ (by simp [hpx]), ih]

theorem filter_map_pred {α : Type} (f : α → α) (p : α → Bool)
    (hf : ∀ a, p (f a) = p a) :
    ∀ l : List α, (l.map f).filter p = (l.filter p).map f := by
  intro l
  induction l with
  | nil => rfl
  | cons x xs ih =>
      cases hpx : p x with
      | true => simp [List.filter_cons, hf x, hpx, ih]
      | false => simp [List.filter_cons, hf x, hpx, ih]

theorem filter_of_countP_le_one {α : Type} (p : α → Bool) :
    ∀ (l : List α) (a : α), l.countP p ≤ 1 → l.find? p = some a →
      l.filter p = [a] := by
  intro l
  induction l with
  | nil => intro a _ h; cases h
  | cons x xs ih =>
      intro a hcount hfind
      cases hpx : p x with
      | true =>
          rw [List.find?_cons_of_pos _ hpx] at hfind
          cases hfind
          rw [List.countP_cons, if_pos hpx] at hcount
          have hzero : xs.countP p = 0 := by omega
          have : xs.filter p = [] :=
            List.filter_eq_nil_iff.mpr (List.countP_eq_zero.mp hzero)
          simp [List.filter_cons, hpx, this]
      | false =>
          rw [List.find?_cons_of_neg _ (by simp [hpx])] at hfind
          rw [List.countP_cons, if_neg (by simp [hpx])] at hcount
          simp [List.filter_cons, hpx, ih a hcount hfind]

/-! ### Admin user update (`src/routes/usuario.ts`, PUT `/api/usuarios/:id`). -/

/-- The body of PUT `/api/usuarios/:id` after `usuarioAdminUpdateSchema`
parsing: `senha` is optional and, when present, either at least 6 characters or
the empty string literal; `role` carries the schema default `'user'` when
omitted. -/
structure UsuarioAdminUpdateInput where
  nome : String
  email : String
  senha : Option String
  role : String
deriving DecidableEq, Repr

/-- The `senha` rule of `usuarioAdminUpdateSchema` (lines 244-252):
`z.union([z.string().min(6), z.literal('')]).optional()`. -/
def senhaSchemaOk (senha : Option String) : Bool :=
  match senha with
  | none => true
  | some s => decide (6 ≤ s.length) || s == ""

/-- PUT `/api/usuarios/:id` (lines 345-422).  `hashFn` abstracts
`bcrypt.hash(·, 10)`.  Look the target up (404 when absent); reject with 400
"Email já está sendo usado" when the new email differs and is taken; update
nome, email and role, and replace the password digest only when `dados.senha`
is truthy (a non-empty string) with non-blank trim —
`if (dados.senha && dados.senha.trim() !== '')`. -/
def updateUsuario (hashFn : String → String) (db : DB) (id : Nat)
    (dados : UsuarioAdminUpdateInput) : DB × Except ApiError Usuario :=
  match db.usuarios.find? (fun u => u.id == id) with
  | none => (db, .error (NotFound "Usuário não encontrado"))
  | some uExist =>
      if dados.email != uExist.email
          && (db.usuarios.find? (fun u => u.email == dados.email)).isSome then
        (db, .error (Conflict "Email já está sendo usado"))
      else
        let novaSenha := match dados.senha with
          | some s => if s != "" && s.trim != "" then hashFn s else uExist.senha
          | none => uExist.senha
        let upd := fun u : Usuario =>
          if u.id == id then
            { u with
              nome := dados.nome, email := dados.email,
              role := dados.role, senha := novaSenha }
          else u
        ({ db with usuarios := db.usuarios.map upd },
          .ok { uExist with
                nome := dados.nome, email := dados.email,
                role := dados.role, senha := novaSenha })

/-- C10: updating an existing user (with the email guard passing) with `senha`
omitted or equal to the empty string updates nome, email and role but keeps the
stored password digest; the digest is replaced — with the hash of the new
password — exactly when a supplied senha is non-empty with non-blank trim, so a
changed digest implies a non-empty senha was supplied. -/
theorem updateUsuario_senha_frame (hashFn : String → String) (db : DB)
    (id : Nat) (dados : UsuarioAdminUpdateInput) (uExist : Usuario)
    (hfind : db.usuarios.find? (fun u => u.id == id) = some uExist)
    (hschema : senhaSchemaOk dados.senha = true)
    (hemail : dados.email = uExist.email
      ∨ (db.usuarios.find? (fun u => u.email == dados.email)).isSome = false) :
    (dados.senha = none ∨ dados.senha = some "" →
      (updateUsuario hashFn db id dados).1.usuarios.find? (fun u => u.id == id)
        = some { uExist with
                 nome := dados.nome, email := dados.email,
                 role := dados.role })
    ∧ (∀ s : String, dados.senha = some s → s ≠ "" → s.trim ≠ "" →
      (updateUsuario hashFn db id dados).1.usuarios.find? (fun u => u.id == id)
        = some { uExist with
                 nome := dados.nome, email := dados.email,
                 role := dados.role, senha := hashFn s })
    ∧ (∀ u' : Usuario,
      (updateUsuario hashFn db id dados).1.usuarios.find? (fun u => u.id == id)
          = some u' →
      u'.senha ≠ uExist.senha → ∃ s : String, dados.senha = some s ∧ s ≠ "") := by
  have hguard : (dados.email != uExist.email
      && (db.usuarios.find? (fun u => u.email == dados.email)).isSome) = false := by
    rcases hemail with h | h
    · simp [h]
    · simp [h]
  have hid : (uExist.id == id) = true := by
    have h := List.find?_some hfind
    simpa using h
  have hupd : ∀ novaSenha : String,
      (db.usuarios.map (fun u : Usuario =>
        if u.id == id then
          { u with
            nome := dados.nome, email := dados.email,
            role := dados.role, senha := novaSenha }
        else u)).find? (fun u => u.id == id)
      = some { uExist with
               nome := dados.nome, email := dados.email,
               role := dados.role, senha := novaSenha } := by
    intro novaSenha
    rw [find?_map_pred _ _ ?hpres, hfind, Option.map_some']
    case hpres =>
      intro a
      by_cases ha : (a.id == id) = true
      · rw [if_pos ha]
      · rw [if_neg ha]
    · simp only [Option.some.injEq]
      rw [if_pos hid]
  refine ⟨?_, ?_, ?_⟩
  · intro hsenha
    rcases hsenha with h | h
    · simp only [updateUsuario, hfind, hguard, Bool.false_eq_true, if_false, h]
      exact hupd uExist.senha
    · simp only [updateUsuario, hfind, hguard, Bool.false_eq_true, if_false, h,
        bne_self_eq_false, Bool.false_and, if_false]
      exact hupd uExist.senha
  · intro s hs hne htrim
    have hcond : (s != "" && s.trim != "") = true := by
      simp [bne, hne, htrim]
    simp only [updateUsuario, hfind, hguard, Bool.false_eq_true, if_false, hs, hcond,
      if_true]
    exact hupd (hashFn s)
  · intro u' hu' hdiff
    cases hs : dados.senha with
    | none =>
        exfalso
        apply hdiff
        simp only [updateUsuario, hfind, hguard, Bool.false_eq_true, if_false, hs] at hu'
        rw [hupd uExist.senha] at hu'
        cases hu'
        rfl
    | some s =>
        refine ⟨s, rfl, ?_⟩
        intro hempty
        apply hdiff
        subst hempty
        have hcond : ("" != "" && "".trim != "") = false := by simp
        simp only [updateUsuario, hfind, hguard, Bool.false_eq_true, if_false, hs,
          hcond, if_false] at hu'
        rw [hupd uExist.senha] at hu'
        cases hu'
        rfl

/-- Witness for C10: updating user 1's nome/email/role with `senha` omitted
keeps the stored digest `"olddigest"`. -/
theorem updateUsuario_senha_frame_witness :
    (updateUsuario (fun s => "hash:" ++ s)
        ⟨[⟨1, "A", "a@a.com", "olddigest", "user", 0⟩], [], [], 2, 9⟩ 1
        ⟨"A2", "a2@a.com", none, "admin"⟩).1.usuarios.find? (fun u => u.id == 1)
      = some ⟨1, "A2", "a2@a.com", "olddigest", "admin", 0⟩ := by
  have h := updateUsuario_senha_frame (fun s => "hash:" ++ s)
    ⟨[⟨1, "A", "a@a.com", "olddigest", "user", 0⟩], [], [], 2, 9⟩ 1
    ⟨"A2", "a2@a.com", none, "admin"⟩ ⟨1, "A", "a@a.com", "olddigest", "user", 0⟩
    rfl rfl (Or.inr (by decide))
  exact h.1 (Or.inl rfl)

/-! ### Idempotence of the client upsert-by-cpf (claim C6). -/

/-- One update pass of the upsert's `some` branch. -/
def upsertPass (d : ClienteInput) (c : Cliente) : Cliente :=
  if c.cpf == d.cpf then updateClienteFields c d else c

theorem upsertPass_pred (d : ClienteInput) (c : Cliente) :
    ((upsertPass d c).cpf == d.cpf) = (c.cpf == d.cpf) := by
  unfold upsertPass
  by_cases h : (c.cpf == d.cpf) = true
  · rw [if_pos h, h]
    simp [updateClienteFields]
  · rw [if_neg h]

theorem upsertPass_idem (d : ClienteInput) (c : Cliente) :
    upsertPass d (upsertPass d c) = upsertPass d c := by
  unfold upsertPass
  by_cases h : (c.cpf == d.cpf) = true
  · rw [if_pos h]
    rw [if_pos (by simp [updateClienteFields])]
    simp [updateClienteFields]
  · rw [if_neg h, if_neg h]

theorem upsertClienteByCpf_eq_pass (db : DB) (d : ClienteInput) (c0 : Cliente)
    (h : db.clientes.find? (fun c => c.cpf == d.cpf) = some c0) :
    upsertClienteByCpf db d
      = ({ db with clientes := db.clientes.map (upsertPass d) },
          updateClienteFields c0 d) := by
  unfold upsertClienteByCpf
  rw [h]
  rfl

/-- C6: with the store's cpf-uniqueness invariant (at most one client per cpf),
running the upsert step of calculation-create twice with the same input leaves
the second call a no-op — identical resulting store and identical returned
record — and the store after the first call holds exactly one client with that
cpf, whose contact fields are the input's. -/
theorem upsertClienteByCpf_idempotent (db : DB) (d : ClienteInput)
    (huniq : db.clientes.countP (fun c => c.cpf == d.cpf) ≤ 1) :
    upsertClienteByCpf (upsertClienteByCpf db d).1 d = upsertClienteByCpf db d
    ∧ (upsertClienteByCpf db d).1.clientes.filter (fun c => c.cpf == d.cpf)
        = [(upsertClienteByCpf db d).2]
    ∧ (upsertClienteByCpf db d).2.nome = d.nome
    ∧ (upsertClienteByCpf db d).2.telefone = d.telefone
    ∧ (upsertClienteByCpf db d).2.cpf = d.cpf
    ∧ (upsertClienteByCpf db d).2.email = d.email := by
  cases hfind : db.clientes.find? (fun c => c.cpf == d.cpf) with
  | none =>
      have hnomatch : ∀ c ∈ db.clientes, ¬ ((fun c : Cliente => c.cpf == d.cpf) c = true) :=
        List.find?_eq_none.mp hfind
      have hres : upsertClienteByCpf db d
          = ({ db with
                clientes := db.clientes ++
                  [⟨db.nextId, d.nome, d.telefone, d.cpf, d.email, db.now⟩],
                nextId := db.nextId + 1 },
              ⟨db.nextId, d.nome, d.telefone, d.cpf, d.email, db.now⟩) := by
        unfold upsertClienteByCpf
        rw [hfind]
      have hfind2 : (db.clientes ++
          [(⟨db.nextId, d.nome, d.telefone, d.cpf, d.email, db.now⟩ : Cliente)]).find?
            (fun c => c.cpf == d.cpf)
          = some ⟨db.nextId, d.nome, d.telefone, d.cpf, d.email, db.now⟩ := by
        rw [List.find?_append, List.find?_eq_none.mpr hnomatch, Option.none_or]
        rw [List.find?_cons_of_pos _ (by simp)]
      have hmap : (db.clientes ++
          [(⟨db.nextId, d.nome, d.telefone, d.cpf, d.email, db.now⟩ : Cliente)]).map
            (upsertPass d)
          = db.clientes ++
            [⟨db.nextId, d.nome, d.telefone, d.cpf, d.email, db.now⟩] := by
        rw [List.map_append]
        congr 1
        · have hmapid : db.clientes.map (upsertPass d) = db.clientes.map id :=
            List.map_congr_left (by
              intro a ha
              unfold upsertPass
              rw [if_neg (hnomatch a ha)]
              rfl)
          simpa using hmapid
        · simp only [List.map_cons, List.map_nil]
          unfold upsertPass
          rw [if_pos (by simp)]
          simp [updateClienteFields]
      constructor
      · rw [hres]
        rw [upsertClienteByCpf_eq_pass _ d
            ⟨db.nextId, d.nome, d.telefone, d.cpf, d.email, db.now⟩ hfind2]
        simp [hmap, updateClienteFields]
      · rw [hres]
        refine ⟨?_, rfl, rfl, rfl, rfl⟩
        show (db.clientes ++
            [(⟨db.nextId, d.nome, d.telefone, d.cpf, d.email, db.now⟩ : Cliente)]).filter
              (fun c => c.cpf == d.cpf)
          = [⟨db.nextId, d.nome, d.telefone, d.cpf, d.email, db.now⟩]
        rw [List.filter_append, List.filter_eq_nil_iff.mpr hnomatch,
          List.nil_append, List.filter_cons]
        simp
  | some c0 =>
      have hc0pred : (c0.cpf == d.cpf) = true := by
        have h := List.find?_some hfind
        simpa using h
      have hc0mem : c0 ∈ db.clientes := List.mem_of_find?_eq_some hfind
      have hres := upsertClienteByCpf_eq_pass db d c0 hfind
      have hfilter1 : db.clientes.filter (fun c => c.cpf == d.cpf) = [c0] :=
        filter_of_countP_le_one _ db.clientes c0 huniq hfind
      have hfind2 : (db.clientes.map (upsertPass d)).find? (fun c => c.cpf == d.cpf)
          = some (updateClienteFields c0 d) := by
        rw [find?_map_pred (upsertPass d) _ (upsertPass_pred d) db.clientes, hfind,
          Option.map_some']
        unfold upsertPass
        rw [if_pos hc0pred]
      have hmapmap : (db.clientes.map (upsertPass d)).map (upsertPass d)
          = db.clientes.map (upsertPass d) := by
        rw [List.map_map]
        apply List.map_congr_left
        intro a _
        exact upsertPass_idem d a
      constructor
      · rw [hres]
        rw [upsertClienteByCpf_eq_pass _ d (updateClienteFields c0 d) hfind2]
        simp [hmapmap, updateClienteFields]
      · rw [hres]
        refine ⟨?_, rfl, rfl, rfl, rfl⟩
        show (db.clientes.map (upsertPass d)).filter (fun c => c.cpf == d.cpf)
          = [updateClienteFields c0 d]
        rw [filter_map_pred (upsertPass d) _ (upsertPass_pred d) db.clientes,
          hfilter1]
        simp only [List.map_cons, List.map_nil]
        unfold upsertPass
        rw [if_pos hc0pred]

/-- Witness for C6: upserting the same client input twice into an initially
empty store yields a single, unchanged client record. -/
theorem upsertClienteByCpf_idempotent_witness :
    upsertClienteByCpf
        (upsertClienteByCpf ⟨[], [], [], 1, 0⟩
          ⟨"Nome", "1234567890", "12345678901", "c@c.com"⟩).1
        ⟨"Nome", "1234567890", "12345678901", "c@c.com"⟩
      = upsertClienteByCpf ⟨[], [], [], 1, 0⟩
          ⟨"Nome", "1234567890", "12345678901", "c@c.com"⟩
    ∧ (upsertClienteByCpf ⟨[], [], [], 1, 0⟩
        ⟨"Nome", "1234567890", "12345678901", "c@c.com"⟩).1.clientes.filter
          (fun c => c.cpf == "12345678901")
      = [(upsertClienteByCpf ⟨[], [], [], 1, 0⟩
          ⟨"Nome", "1234567890", "12345678901", "c@c.com"⟩).2] := by
  have h := upsertClienteByCpf_idempotent ⟨[], [], [], 1, 0⟩
    ⟨"Nome", "1234567890", "12345678901", "c@c.com"⟩ (by decide)
  exact ⟨h.1, h.2.1⟩

end CalculadoraAPI
